import Mathlib

/-!
Verification development for the PID controller block
(src/idaes/dynamic/pid_controller.py) and the NTU condenser model
(src/idaes/power_generation/unit_models/helm/condenser_ntu.py).

The time set of the flowsheet is modelled as a finite list of rationals,
sorted strictly increasing (a Pyomo ordered set).  Time-indexed Pyomo
variables and references become functions from the time value to a value.
Pyomo expressions become Lean functions translated from the decorated
Python functions that build them.
-/

/-- Time-indexed inputs of the PID block: the variables `setpoint`, `gain`,
`time_i`, `time_d`, the scalar `err_d0`, and the external references
`pv` and `output` (a Pyomo Var or Reference is total over time values). -/
structure PIDInputs where
  setpoint : ℚ → ℚ
  gain : ℚ → ℚ
  time_i : ℚ → ℚ
  time_d : ℚ → ℚ
  err_d0 : ℚ
  pv : ℚ → ℚ
  output : ℚ → ℚ

/-- Pyomo's `time_set.prev(t)`: the element of the sorted set immediately
before `t`, i.e. the last element of the sorted list that is below `t`. -/
def prevT (ts : List ℚ) (t : ℚ) : ℚ :=
  (ts.filter (fun s => s < t)).getLastD 0

/-- `err[t] = setpoint[t] - pv[t]` (the `err` expression of the source). -/
def err (p : PIDInputs) (t : ℚ) : ℚ :=
  p.setpoint t - p.pv t

/-- `pterm[t] = -pv[t]`. -/
def pterm (p : PIDInputs) (t : ℚ) : ℚ :=
  -(p.pv t)

/-- `dterm[t] = -pv[t]`. -/
def dterm (p : PIDInputs) (t : ℚ) : ℚ :=
  -(p.pv t)

/-- `iterm[t] = err[t]`. -/
def iterm (p : PIDInputs) (t : ℚ) : ℚ :=
  err p t

/-- `err_d[t]`: `err_d0` at the first time point, backward finite
difference of `dterm` otherwise. -/
def err_d (p : PIDInputs) (ts : List ℚ) (t : ℚ) : ℚ :=
  if t = ts.headD 0 then p.err_d0
  else (dterm p t - dterm p (prevT ts t)) / (t - prevT ts t)

/-- The `err_i0` expression built when `calculate_initial_integral` is
enabled.  Note the source indexes the output reference at the literal
time `0` (`b.output[0]`), not at `t0 = time_set.first()`:
`time_i[t0]*(output[0] - gain[t0]*pterm[t0]
             - gain[t0]*time_d[t0]*err_d[t0])/gain[t0]`. -/
def err_i0_calc (p : PIDInputs) (ts : List ℚ) : ℚ :=
  p.time_i (ts.headD 0) *
    (p.output 0 - p.gain (ts.headD 0) * pterm p (ts.headD 0)
      - p.gain (ts.headD 0) * p.time_d (ts.headD 0) * err_d p ts (ts.headD 0))
    / p.gain (ts.headD 0)

/-- The `err_i` expression: `err_i0` plus the trapezoid sum
`sum((iterm[t] + iterm[prev(t)])*(t - prev(t))/2
     for t in time_set if t <= t_end and t > t0)`.
`ei0` stands for the `err_i0` component (either the fixed variable or the
computed expression, depending on configuration). -/
def err_i (p : PIDInputs) (ts : List ℚ) (ei0 : ℚ) (t_end : ℚ) : ℚ :=
  ei0 + (((ts.filter (fun t => t ≤ t_end ∧ ts.headD 0 < t)).map
    (fun t => (iterm p t + iterm p (prevT ts t)) * (t - prevT ts t) / 2)).sum)

/-- `unconstrained_output[t] = gain[t]*(pterm[t] + 1/time_i[t]*err_i[t]
+ time_d[t]*err_d[t])`. -/
def unconstrained_output (p : PIDInputs) (ts : List ℚ) (ei0 : ℚ) (t : ℚ) : ℚ :=
  p.gain t * (pterm p t + 1 / p.time_i t * err_i p ts ei0 t
    + p.time_d t * err_d p ts t)

/-- The `output_constraint` rule: at the first time point the constraint is
skipped (`none`); at any other time point the generated equality is
`output[t] == smooth_min(smooth_max(unconstrained_output[t], l, e), h, e)`,
returned as the pair (left side, right side).  The smoothed min and max come
from outside the modelled sources and are passed in abstractly. -/
def output_constraint (p : PIDInputs) (ts : List ℚ) (ei0 : ℚ)
    (smin smax : ℚ → ℚ → ℚ → ℚ) (l h e : ℚ) (t : ℚ) : Option (ℚ × ℚ) :=
  if t = ts.headD 0 then none
  else some (p.output t, smin (smax (unconstrained_output p ts ei0 t) l e) h e)

/-- The PID configuration surface relevant to the output limits:
`upper` defaults to 1.0 and `lower` to 0.0. -/
structure PIDConfig where
  upper : ℚ := 1
  lower : ℚ := 0
  calculate_initial_integral : Bool := true

/-- The `limits` parameter pair built by `build`:
`l` initialized to `config.lower`, `h` to `config.upper`, with no
validation performed. -/
structure Limits where
  l : ℚ
  h : ℚ

/-- Construction of `self.limits` from the configuration. -/
def buildLimits (cfg : PIDConfig) : Limits :=
  { l := cfg.lower, h := cfg.upper }

/-! ## NTU condenser: performance expressions -/

/-- Time-indexed quantities the condenser expressions reference: the block
variables `overall_heat_transfer_coefficient` and `area` and the
control-volume properties appearing in the expressions
(`side_2.properties_in[t].flow_mol`, `side_2.properties_in[t].cp_mol_phase
["Liq"]`, `side_1.properties_in[t].temperature_sat`,
`side_2.properties_in[t].temperature`, `side_1.heat`, `side_2.heat`). -/
structure CondenserVars where
  overall_heat_transfer_coefficient : ℚ → ℝ
  area : ℝ
  flow_mol_cold_in : ℚ → ℝ
  cp_mol_liq_cold_in : ℚ → ℝ
  temperature_sat_hot_in : ℚ → ℝ
  temperature_cold_in : ℚ → ℝ
  heat_hot : ℚ → ℝ
  heat_cold : ℚ → ℝ

/-- `mcp_min[t] = side_2.properties_in[t].flow_mol
* side_2.properties_in[t].cp_mol_phase["Liq"]`. -/
noncomputable def mcp_min (c : CondenserVars) (t : ℚ) : ℝ :=
  c.flow_mol_cold_in t * c.cp_mol_liq_cold_in t

/-- `ntu[t] = overall_heat_transfer_coefficient[t]*area/mcp_min[t]`. -/
noncomputable def ntu (c : CondenserVars) (t : ℚ) : ℝ :=
  c.overall_heat_transfer_coefficient t * c.area / mcp_min c t

/-- `effectiveness[t] = 1 - exp(-ntu[t])`. -/
noncomputable def effectiveness (c : CondenserVars) (t : ℚ) : ℝ :=
  1 - Real.exp (-(ntu c t))

/-- `heat_transfer[t] = effectiveness[t]*mcp_min[t]
* (side_1.properties_in[t].temperature_sat
   - side_2.properties_in[t].temperature)`. -/
noncomputable def heat_transfer (c : CondenserVars) (t : ℚ) : ℝ :=
  effectiveness c t * mcp_min c t *
    (c.temperature_sat_hot_in t - c.temperature_cold_in t)

/-- The `unit_heat_balance` constraint family: for each `t` of the time set,
the rule returns `0 == side_1.heat[t] + side_2.heat[t]`; one constraint is
generated per time point. -/
def unit_heat_balance (ts : List ℚ) (c : CondenserVars) : List Prop :=
  ts.map (fun t => ((0 : ℝ) = c.heat_hot t + c.heat_cold t))

/-! ## NTU condenser: initialization sequencer

The initialization routine mutates the fixed flags of variables, the active
flags of constraints and the variable values, then restores a snapshot.
Variables are keyed by a variable identifier and a natural-number time
index (the source indexes `properties_in[0]` at the literal time `0`). -/

/-- Variable identifiers relevant to the initialization routine:
`hot_side.properties_in[..].pressure`, `hot_side.properties_in[..].flow_mol`,
`cold_side.properties_in[..].flow_mol`, and arbitrarily many other
variables of the block. -/
inductive CVar where
  | hotPressureIn : CVar
  | hotFlowIn : CVar
  | coldFlowIn : CVar
  | other : ℕ → CVar
deriving DecidableEq

/-- Constraint identifiers: the `saturation_eqn` and arbitrarily many other
constraints of the block. -/
inductive CCon where
  | saturation_eqn : CCon
  | other : ℕ → CCon
deriving DecidableEq

/-- The mutable solver-facing state of the condenser block: per variable and
time index a fixed flag and a value, per constraint an active flag. -/
structure BlockState where
  fixedV : CVar → ℕ → Bool
  valV : CVar → ℕ → ℚ
  activeC : CCon → Bool

/-- Modelled from the spec: the snapshot taken by
`to_json(blk, wts=StoreSpec.value_isfixed_isactive(only_fixed=True))`
captures every variable's fixed flag, the value of each fixed variable
only, and every constraint's active flag (the framework snapshot mechanism
is outside the modelled sources). -/
structure Snapshot where
  fixedV : CVar → ℕ → Bool
  valV : CVar → ℕ → Option ℚ
  activeC : CCon → Bool

/-- Modelled from the spec: `to_json` with
`StoreSpec.value_isfixed_isactive(only_fixed=True)`. -/
def to_json (s : BlockState) : Snapshot :=
  { fixedV := s.fixedV
    valV := fun v t => if s.fixedV v t then some (s.valV v t) else none
    activeC := s.activeC }

/-- Modelled from the spec: `from_json` with the same store spec restores
every fixed flag and active flag from the snapshot and the values of the
variables that were fixed when the snapshot was taken; other values keep
their current (post-solve) contents. -/
def from_json (s : BlockState) (snap : Snapshot) : BlockState :=
  { fixedV := snap.fixedV
    valV := fun v t => (snap.valV v t).getD (s.valV v t)
    activeC := snap.activeC }

/-- Modelled from the spec: a control-volume `initialize` call applies
temporary inlet-state fixing (fixing the inlet variables of its side at
every time index), may overwrite variable values, and returns flags
recording exactly the variable/time pairs it newly fixed, so that
`release_state` can undo the fixing. -/
def cvInit (inlet : CVar → Bool) (vals : CVar → ℕ → ℚ) (s : BlockState) :
    BlockState × (CVar → ℕ → Bool) :=
  ({ fixedV := fun v t => if inlet v then true else s.fixedV v t
     valV := vals
     activeC := s.activeC },
   fun v t => inlet v ∧ ¬ s.fixedV v t)

/-- Modelled from the spec: `release_state(flags)` unfixes exactly the
variable/time pairs recorded in the flags. -/
def release_state (flags : CVar → ℕ → Bool) (s : BlockState) : BlockState :=
  { fixedV := fun v t => if flags v t then false else s.fixedV v t
    valV := s.valV
    activeC := s.activeC }

/-- `blk.saturation_eqn.activate()`. -/
def activateSaturation (s : BlockState) : BlockState :=
  { fixedV := s.fixedV
    valV := s.valV
    activeC := fun c => if c = CCon.saturation_eqn then true else s.activeC c }

/-- The branch on the `unfix` argument: `pressure` unfixes
`hot_side.properties_in[0].pressure`, `hot_flow` unfixes
`hot_side.properties_in[0].flow_mol`, `cold_flow` unfixes
`cold_side.properties_in[0].flow_mol`; only the time index `0` is touched. -/
def unfixStep (unfix : String) (s : BlockState) : BlockState :=
  if unfix = "pressure" then
    { s with fixedV := fun v t =>
        if v = CVar.hotPressureIn ∧ t = 0 then false else s.fixedV v t }
  else if unfix = "hot_flow" then
    { s with fixedV := fun v t =>
        if v = CVar.hotFlowIn ∧ t = 0 then false else s.fixedV v t }
  else if unfix = "cold_flow" then
    { s with fixedV := fun v t =>
        if v = CVar.coldFlowIn ∧ t = 0 then false else s.fixedV v t }
  else s

/-- The variable selected by a valid `unfix` argument. -/
def selectedVar (unfix : String) : CVar :=
  if unfix = "pressure" then CVar.hotPressureIn
  else if unfix = "hot_flow" then CVar.hotFlowIn
  else CVar.coldFlowIn

/-- The state handed to the external nonlinear solver: both control volumes
initialized, the saturation constraint activated, and the selected degree
of freedom unfixed. -/
def preSolveState (inlet1 inlet2 : CVar → Bool) (vals1 vals2 : CVar → ℕ → ℚ)
    (unfix : String) (s : BlockState) : BlockState :=
  unfixStep unfix
    (activateSaturation (cvInit inlet2 vals2 (cvInit inlet1 vals1 s).1).1)

/-- The body of the condenser `initialize` routine after the argument check:
snapshot, control-volume initializations, saturation-constraint activation,
unfixing of the selected degree of freedom, external solve (an arbitrary
state transformer returning a termination code; non-convergence is just a
code and never raises), release of the temporary inlet fixing, and snapshot
restoration. -/
def condenserInitBody (inlet1 inlet2 : CVar → Bool)
    (vals1 vals2 : CVar → ℕ → ℚ) (solve : BlockState → BlockState × ℕ)
    (unfix : String) (s : BlockState) : BlockState × ℕ :=
  let istate := to_json s
  let flags1 := (cvInit inlet1 vals1 s).2
  let flags2 := (cvInit inlet2 vals2 (cvInit inlet1 vals1 s).1).2
  let solved := solve (preSolveState inlet1 inlet2 vals1 vals2 unfix s)
  let s6 := release_state flags1 solved.1
  let s7 := release_state flags2 s6
  (from_json s7 istate, solved.2)

/-- The error message raised for an invalid `unfix` argument. -/
def condenserUnfixError : String :=
  "Condenser free variable must be in hot_flow, cold_flow, or pressure"

/-- The condenser `initialize` routine: the `unfix` argument is checked
before anything else; an invalid selection raises (returns `Except.error`)
before the snapshot, the control-volume initializations and the solver
call; otherwise the body runs and returns the final state and the solver
termination code. -/
def condenserInit (inlet1 inlet2 : CVar → Bool)
    (vals1 vals2 : CVar → ℕ → ℚ) (solve : BlockState → BlockState × ℕ)
    (unfix : String) (s : BlockState) : Except String (BlockState × ℕ) :=
  if unfix = "hot_flow" ∨ unfix = "cold_flow" ∨ unfix = "pressure" then
    Except.ok (condenserInitBody inlet1 inlet2 vals1 vals2 solve unfix s)
  else
    Except.error condenserUnfixError

/-! ## Spec-side formulation of the integral error -/

/-- The spec's formulation of the integral error: `err_i0` plus the sum over
consecutive index pairs of the time set up to position `j` of the
trapezoid contributions. -/
def err_i_trapezoid (p : PIDInputs) (ts : List ℚ) (ei0 : ℚ) (j : ℕ) : ℚ :=
  ei0 + ∑ i ∈ Finset.range j,
    (iterm p (ts.getD (i+1) 0) + iterm p (ts.getD i 0))
      * (ts.getD (i+1) 0 - ts.getD i 0) / 2

/-- Concrete PID inputs used to exhibit the gap between `output[0]` and
`output[t0]` in the construction of `err_i0`. -/
def pidCexInputs : PIDInputs :=
  { setpoint := fun _ => 0
    gain := fun _ => 1
    time_i := fun _ => 1
    time_d := fun _ => 0
    err_d0 := 0
    pv := fun _ => 0
    output := fun t => t }

/-- Concrete PID inputs used as witnesses. -/
def pidWitInputs : PIDInputs :=
  { setpoint := fun _ => 3
    gain := fun _ => 2
    time_i := fun _ => 10
    time_d := fun _ => 1
    err_d0 := 5
    pv := fun _ => 1
    output := fun _ => 7 }

/-- Concrete condenser variables used as witnesses. -/
noncomputable def condWitVars : CondenserVars :=
  { overall_heat_transfer_coefficient := fun _ => 100
    area := 1000
    flow_mol_cold_in := fun _ => 10
    cp_mol_liq_cold_in := fun _ => 5
    temperature_sat_hot_in := fun _ => 373
    temperature_cold_in := fun _ => 300
    heat_hot := fun _ => 1
    heat_cold := fun _ => -1 }

/-- A concrete block state used as a witness. -/
def witState : BlockState :=
  { fixedV := fun _ _ => true
    valV := fun _ _ => 0
    activeC := fun _ => false }

/-! ## Helper lemmas -/

lemma headD_eq_getD (ts : List ℚ) (h : ts ≠ []) : ts.headD 0 = ts.getD 0 0 := by
  cases ts with
  | nil => exact absurd rfl h
  | cons a l => rfl

lemma getLastD_irrel (l : List ℚ) (d d' : ℚ) (h : l ≠ []) :
    l.getLastD d = l.getLastD d' := by
  cases l with
  | nil => exact absurd rfl h
  | cons a m => rw [List.getLastD_cons, List.getLastD_cons]

lemma getLastD_take (ts : List ℚ) (i : ℕ) (hi : i < ts.length) :
    (ts.take (i+1)).getLastD 0 = ts.getD i 0 := by
  induction ts generalizing i with
  | nil => simp at hi
  | cons a l ih =>
    cases i with
    | zero => simp
    | succ k =>
      have hk : k < l.length := by simpa using hi
      have hne : l.take (k+1) ≠ [] := by
        have : 0 < (l.take (k+1)).length := by
          rw [List.length_take]; omega
        exact List.ne_nil_of_length_pos this
      rw [List.take_succ_cons, List.getLastD_cons, List.getD_cons_succ,
        getLastD_irrel _ _ 0 hne]
      exact ih k hk

lemma filter_lt_getD (ts : List ℚ) (hs : List.Sorted (· < ·) ts) (j : ℕ)
    (hj : j < ts.length) :
    ts.filter (fun s => s < ts.getD j 0) = ts.take j := by
  induction ts generalizing j with
  | nil => simp
  | cons a l ih =>
    rw [List.sorted_cons] at hs
    cases j with
    | zero =>
      simp only [List.getD_cons_zero, List.take_zero]
      rw [List.filter_eq_nil_iff]
      intro b hb
      rcases List.mem_cons.mp hb with hba | hbl
      · subst hba; simp
      · have := hs.1 b hbl
        simp only [decide_eq_true_eq]
        exact not_lt.mpr this.le
    | succ k =>
      have hk : k < l.length := by simpa using hj
      have hmem : l.getD k 0 ∈ l := by
        rw [List.getD_eq_getElem l 0 hk]
        exact List.getElem_mem hk
      have halt : a < l.getD k 0 := hs.1 _ hmem
      rw [List.getD_cons_succ, List.take_succ_cons, List.filter_cons_of_pos
        (by simpa using halt)]
      rw [ih hs.2 k hk]

lemma prevT_getD (ts : List ℚ) (hs : List.Sorted (· < ·) ts) (i : ℕ)
    (hi : i + 1 < ts.length) :
    prevT ts (ts.getD (i+1) 0) = ts.getD i 0 := by
  unfold prevT
  rw [filter_lt_getD ts hs (i+1) hi]
  exact getLastD_take ts i (by omega)

lemma map_filter_sum (p : ℚ → Bool) (f : ℚ → ℚ) (ts : List ℚ) :
    ((ts.filter p).map f).sum = (ts.map (fun t => if p t then f t else 0)).sum := by
  induction ts with
  | nil => rfl
  | cons a l ih =>
    by_cases h : p a
    · rw [List.filter_cons_of_pos h]
      simp [h, ih]
    · rw [List.filter_cons_of_neg h]
      simp [h, ih]

lemma map_sum_eq_range (g : ℚ → ℚ) (ts : List ℚ) :
    (ts.map g).sum = ∑ i ∈ Finset.range ts.length, g (ts.getD i 0) := by
  induction ts with
  | nil => simp
  | cons a l ih =>
    rw [List.map_cons, List.sum_cons, List.length_cons,
      Finset.sum_range_succ']
    simp only [List.getD_cons_succ, List.getD_cons_zero]
    rw [ih]
    ring

lemma sorted_getD_le_getD (ts : List ℚ) (hs : List.Sorted (· < ·) ts)
    {i j : ℕ} (hi : i < ts.length) (hj : j < ts.length) :
    ts.getD i 0 ≤ ts.getD j 0 ↔ i ≤ j := by
  rw [List.getD_eq_getElem ts 0 hi, List.getD_eq_getElem ts 0 hj]
  constructor
  · intro h
    by_contra hc
    have : j < i := by omega
    have := hs.get_strictMono (a := ⟨j, hj⟩) (b := ⟨i, hi⟩) this
    simp only [List.get_eq_getElem] at this
    exact absurd h (not_le.mpr this)
  · intro h
    rcases Nat.eq_or_lt_of_le h with he | hlt
    · subst he; rfl
    · have := hs.get_strictMono (a := ⟨i, hi⟩) (b := ⟨j, hj⟩) hlt
      simp only [List.get_eq_getElem] at this
      exact this.le

lemma sorted_getD_lt_getD (ts : List ℚ) (hs : List.Sorted (· < ·) ts)
    {i j : ℕ} (hi : i < ts.length) (hj : j < ts.length) :
    ts.getD i 0 < ts.getD j 0 ↔ i < j := by
  constructor
  · intro h
    by_contra hc
    have : j ≤ i := by omega
    exact absurd ((sorted_getD_le_getD ts hs hj hi).mpr this) (not_le.mpr h)
  · intro h
    have h1 := (sorted_getD_le_getD ts hs hi hj).mpr h.le
    rcases lt_or_eq_of_le h1 with h2 | h2
    · exact h2
    · exfalso
      have := (sorted_getD_le_getD ts hs hj hi).mp (le_of_eq h2.symm)
      omega

lemma err_i_eq_trapezoid (p : PIDInputs) (ts : List ℚ) (ei0 : ℚ) (j : ℕ)
    (hs : List.Sorted (· < ·) ts) (hj : j < ts.length) :
    err_i p ts ei0 (ts.getD j 0) = err_i_trapezoid p ts ei0 j := by
  have hne : ts ≠ [] := List.ne_nil_of_length_pos (by omega)
  unfold err_i err_i_trapezoid
  rw [map_filter_sum, map_sum_eq_range]
  congr 1
  have step1 : ∀ i ∈ Finset.range ts.length,
      (if (decide (ts.getD i 0 ≤ ts.getD j 0 ∧ ts.headD 0 < ts.getD i 0)) then
        (iterm p (ts.getD i 0) + iterm p (prevT ts (ts.getD i 0)))
          * (ts.getD i 0 - prevT ts (ts.getD i 0)) / 2 else 0)
      = (if 1 ≤ i ∧ i ≤ j then
        (iterm p (ts.getD i 0) + iterm p (prevT ts (ts.getD i 0)))
          * (ts.getD i 0 - prevT ts (ts.getD i 0)) / 2 else 0) := by
    intro i hi
    have hilen : i < ts.length := Finset.mem_range.mp hi
    have hiff : (ts.getD i 0 ≤ ts.getD j 0 ∧ ts.headD 0 < ts.getD i 0)
        ↔ (1 ≤ i ∧ i ≤ j) := by
      rw [headD_eq_getD ts hne,
        sorted_getD_le_getD ts hs hilen hj,
        sorted_getD_lt_getD ts hs (by omega) hilen]
      omega
    simp only [decide_eq_true_eq]
    exact if_congr hiff rfl rfl
  rw [Finset.sum_congr rfl step1]
  have step2 : ∑ i ∈ Finset.range ts.length,
      (if 1 ≤ i ∧ i ≤ j then
        (iterm p (ts.getD i 0) + iterm p (prevT ts (ts.getD i 0)))
          * (ts.getD i 0 - prevT ts (ts.getD i 0)) / 2 else 0)
      = ∑ i ∈ Finset.Icc 1 j,
        (iterm p (ts.getD i 0) + iterm p (prevT ts (ts.getD i 0)))
          * (ts.getD i 0 - prevT ts (ts.getD i 0)) / 2 := by
    rw [← Finset.sum_filter]
    apply Finset.sum_congr
    · ext i
      simp only [Finset.mem_filter, Finset.mem_range, Finset.mem_Icc]
      omega
    · intro i _
      rfl
  rw [step2, ← Nat.Ico_succ_right, Finset.sum_Ico_eq_sum_range]
  apply Finset.sum_congr (by simp)
  intro i hi
  have hij : i < j := Finset.mem_range.mp hi
  have h1 : 1 + i = i + 1 := by omega
  rw [h1, prevT_getD ts hs i (by omega)]

/-! ## Claim theorems: PID controller -/

/-- C1, counterexample: on the time set `[1, 2]` (first point `t0 = 1`),
with `gain[t0] = 1 != 0` and `time_i[t0] = 1 != 0`, the output law does not
hold at `t0`, because `err_i0` is back-solved against `output[0]` (the
literal time `0`) rather than `output[t0]`. -/
theorem pid_c1_counterexample :
    pidCexInputs.gain (([1, 2] : List ℚ).headD 0) ≠ 0 ∧
    pidCexInputs.time_i (([1, 2] : List ℚ).headD 0) ≠ 0 ∧
    ¬ (pidCexInputs.output (([1, 2] : List ℚ).headD 0)
      = pidCexInputs.gain (([1, 2] : List ℚ).headD 0)
        * (pterm pidCexInputs (([1, 2] : List ℚ).headD 0)
          + err_i0_calc pidCexInputs [1, 2]
              / pidCexInputs.time_i (([1, 2] : List ℚ).headD 0)
          + pidCexInputs.time_d (([1, 2] : List ℚ).headD 0)
            * pidCexInputs.err_d0)) := by
  refine ⟨by norm_num [pidCexInputs], by norm_num [pidCexInputs], ?_⟩
  norm_num [pidCexInputs, err_i0_calc, pterm, err_d, dterm, prevT]

/-- C1 (amended): for every time set whose first point `t0` is the time
value `0` (so that `output[0]` and `output[t0]` coincide), and every
assignment with `gain[t0] != 0` and `time_i[t0] != 0`, the constructed
`err_i0` back-solves the output law exactly:
`out[t0] == K[t0]*(pterm[t0] + err_i0/Ti[t0] + Td[t0]*err_d0)`. -/
theorem pid_c1_err_i0_backsolve (p : PIDInputs) (ts : List ℚ)
    (hne : ts ≠ []) (h0 : ts.headD 0 = 0)
    (hg : p.gain 0 ≠ 0) (hi : p.time_i 0 ≠ 0) :
    p.output 0 = p.gain 0 * (pterm p 0 + err_i0_calc p ts / p.time_i 0
      + p.time_d 0 * p.err_d0) := by
  have hd : err_d p ts (ts.headD 0) = p.err_d0 := by
    unfold err_d
    simp
  unfold err_i0_calc
  rw [hd, h0]
  field_simp
  ring

/-- C1, witness at a concrete input. -/
theorem pid_c1_err_i0_backsolve_witness :
    pidWitInputs.output 0 = pidWitInputs.gain 0 * (pterm pidWitInputs 0
      + err_i0_calc pidWitInputs [0, 1] / pidWitInputs.time_i 0
      + pidWitInputs.time_d 0 * pidWitInputs.err_d0) :=
  pid_c1_err_i0_backsolve pidWitInputs [0, 1] (by decide) (by decide)
    (by decide) (by decide)

/-- C3: for a nonempty time set, no output constraint is generated at the
first point `t0`, and for every other time point `t` of the set the
generated constraint is
`output[t] == smooth_min(smooth_max(unconstrained_output[t], l, e), h, e)`,
for arbitrary smoothed min and max functions and limit parameters. -/
theorem pid_c3_output_constraint (p : PIDInputs) (ts : List ℚ) (ei0 : ℚ)
    (smin smax : ℚ → ℚ → ℚ → ℚ) (l h e : ℚ) (hne : ts ≠ []) :
    output_constraint p ts ei0 smin smax l h e (ts.headD 0) = none ∧
    ∀ t ∈ ts, t ≠ ts.headD 0 →
      output_constraint p ts ei0 smin smax l h e t
        = some (p.output t,
            smin (smax (unconstrained_output p ts ei0 t) l e) h e) := by
  constructor
  · unfold output_constraint
    simp
  · intro t _ ht
    unfold output_constraint
    rw [if_neg ht]

/-- C3, witness at a concrete input. -/
theorem pid_c3_output_constraint_witness :
    output_constraint pidWitInputs [0, 1] 4 (fun x _ _ => x) (fun x _ _ => x)
        0 1 (1/1000) (([0, 1] : List ℚ).headD 0) = none ∧
    output_constraint pidWitInputs [0, 1] 4 (fun x _ _ => x) (fun x _ _ => x)
        0 1 (1/1000) 1
      = some (pidWitInputs.output 1,
          unconstrained_output pidWitInputs [0, 1] 4 1) := by
  have h := pid_c3_output_constraint pidWitInputs [0, 1] 4 (fun x _ _ => x)
    (fun x _ _ => x) 0 1 (1/1000) (by decide)
  exact ⟨h.1, h.2 1 (by decide) (by decide)⟩

/-- C4: on a strictly sorted time set, `err_i` at the `j`-th time point
equals `err_i0` plus the trapezoid sum over the consecutive pairs of time
points up to position `j`, and at the first point `t0` the sum is empty, so
`err_i[t0] = err_i0` exactly. -/
theorem pid_c4_err_i_trapezoid_sum (p : PIDInputs) (ts : List ℚ) (ei0 : ℚ)
    (hs : List.Sorted (fun a b => a < b) ts) (j : ℕ) (hj : j < ts.length) :
    err_i p ts ei0 (ts.getD j 0) = err_i_trapezoid p ts ei0 j ∧
    err_i p ts ei0 (ts.headD 0) = ei0 := by
  refine ⟨err_i_eq_trapezoid p ts ei0 j hs hj, ?_⟩
  unfold err_i
  have hnil : ts.filter (fun t => t ≤ ts.headD 0 ∧ ts.headD 0 < t) = [] := by
    rw [List.filter_eq_nil_iff]
    intro b _
    simp only [decide_eq_true_eq]
    exact fun hx => absurd hx.2 (not_lt.mpr hx.1)
  rw [hnil]
  simp

/-- C4, witness at a concrete input. -/
theorem pid_c4_err_i_trapezoid_sum_witness :
    err_i pidWitInputs [0, 1] 4 (([0, 1] : List ℚ).getD 1 0)
      = err_i_trapezoid pidWitInputs [0, 1] 4 1 ∧
    err_i pidWitInputs [0, 1] 4 (([0, 1] : List ℚ).headD 0) = 4 :=
  pid_c4_err_i_trapezoid_sum pidWitInputs [0, 1] 4 (by decide) 1 (by decide)

/-- C5: on a strictly sorted time set, consecutive integral-error
expressions satisfy the trapezoidal recurrence
`err_i[t] - err_i[prev(t)] == (iterm[t] + iterm[prev(t)])*(t - prev(t))/2`
for every time point strictly after the first one. -/
theorem pid_c5_err_i_recurrence (p : PIDInputs) (ts : List ℚ) (ei0 : ℚ)
    (hs : List.Sorted (fun a b => a < b) ts) (i : ℕ) (hi : i + 1 < ts.length) :
    err_i p ts ei0 (ts.getD (i+1) 0) - err_i p ts ei0 (ts.getD i 0)
      = (iterm p (ts.getD (i+1) 0) + iterm p (ts.getD i 0))
        * (ts.getD (i+1) 0 - ts.getD i 0) / 2 := by
  rw [err_i_eq_trapezoid p ts ei0 (i+1) hs hi,
    err_i_eq_trapezoid p ts ei0 i hs (by omega)]
  unfold err_i_trapezoid
  rw [Finset.sum_range_succ]
  ring

/-- C5, witness at a concrete input. -/
theorem pid_c5_err_i_recurrence_witness :
    err_i pidWitInputs [0, 1] 4 (([0, 1] : List ℚ).getD 1 0)
      - err_i pidWitInputs [0, 1] 4 (([0, 1] : List ℚ).getD 0 0)
      = (iterm pidWitInputs (([0, 1] : List ℚ).getD 1 0)
          + iterm pidWitInputs (([0, 1] : List ℚ).getD 0 0))
        * ((([0, 1] : List ℚ).getD 1 0) - (([0, 1] : List ℚ).getD 0 0)) / 2 :=
  pid_c5_err_i_recurrence pidWitInputs [0, 1] 4 (by decide) 0 (by decide)

/-- C9, counterexample: construction performs no validation of the limit
pair; the configuration `upper = 1, lower = 2` builds a block whose limits
violate `low <= high`. -/
theorem pid_c9_counterexample :
    ¬ ((buildLimits { upper := 1, lower := 2 }).l
        ≤ (buildLimits { upper := 1, lower := 2 }).h) := by
  decide

/-- C9 (amended): the invariant `low <= high` holds for the default
configuration (`lower = 0.0`, `upper = 1.0`); in general construction
copies the configured limits unvalidated, so the constructed pair
satisfies the invariant exactly when the configuration does. -/
theorem pid_c9_default_limits :
    (buildLimits {}).l ≤ (buildLimits {}).h ∧
    ∀ cfg : PIDConfig,
      ((buildLimits cfg).l ≤ (buildLimits cfg).h ↔ cfg.lower ≤ cfg.upper) := by
  exact ⟨by decide, fun cfg => Iff.rfl⟩

/-! ## Claim theorems: NTU condenser -/

/-- C6: the condenser effectiveness expression equals `1 - exp(-ntu[t])`
with `ntu[t] = U[t]*area/mcp_min[t]`, and it lies strictly between 0 and 1
whenever `ntu[t] > 0`. -/
theorem cond_c6_effectiveness (c : CondenserVars) (t : ℚ) :
    effectiveness c t
      = 1 - Real.exp (-(c.overall_heat_transfer_coefficient t * c.area
          / (c.flow_mol_cold_in t * c.cp_mol_liq_cold_in t))) ∧
    (0 < ntu c t → 0 < effectiveness c t ∧ effectiveness c t < 1) := by
  constructor
  · rfl
  · intro hpos
    unfold effectiveness
    have h1 : Real.exp (-(ntu c t)) < 1 := by
      calc Real.exp (-(ntu c t)) < Real.exp 0 :=
            Real.exp_lt_exp.mpr (by linarith)
        _ = 1 := Real.exp_zero
    have h2 : 0 < Real.exp (-(ntu c t)) := Real.exp_pos _
    exact ⟨by linarith, by linarith⟩

/-- C6, witness at a concrete input. -/
theorem cond_c6_effectiveness_witness :
    0 < ntu condWitVars 0 ∧
    (0 < effectiveness condWitVars 0 ∧ effectiveness condWitVars 0 < 1) := by
  have hpos : 0 < ntu condWitVars 0 := by
    norm_num [ntu, mcp_min, condWitVars]
  exact ⟨hpos, (cond_c6_effectiveness condWitVars 0).2 hpos⟩

/-- C7: the condenser build generates, for each point of the time set, the
heat balance constraint `0 == side_1.heat[t] + side_2.heat[t]`, one
constraint per time point. -/
theorem cond_c7_unit_heat_balance (ts : List ℚ) (c : CondenserVars) :
    (unit_heat_balance ts c).length = ts.length ∧
    ∀ j, j < ts.length →
      (unit_heat_balance ts c).getD j True
        = ((0 : ℝ) = c.heat_hot (ts.getD j 0)
            + c.heat_cold (ts.getD j 0)) := by
  constructor
  · exact List.length_map ts _
  · intro j hj
    unfold unit_heat_balance
    rw [List.getD_eq_getElem _ _ (by simpa using hj), List.getElem_map,
      List.getD_eq_getElem _ _ hj]

/-- C7, witness at a concrete input. -/
theorem cond_c7_unit_heat_balance_witness :
    (unit_heat_balance [0] condWitVars).length = ([0] : List ℚ).length ∧
    (unit_heat_balance [0] condWitVars).getD 0 True
      = ((0 : ℝ) = condWitVars.heat_hot (([0] : List ℚ).getD 0 0)
          + condWitVars.heat_cold (([0] : List ℚ).getD 0 0)) := by
  have h := cond_c7_unit_heat_balance [0] condWitVars
  exact ⟨h.1, h.2 0 (by norm_num)⟩

/-- C2: with a valid `unfix` argument the initialization routine returns
normally (for every behaviour of the external solver, including any
non-convergence code), and the returned block state has every variable's
fixed flag and every constraint's active flag equal to its pre-call state;
only values may differ. -/
theorem cond_c2_init_restores_state (inlet1 inlet2 : CVar → Bool)
    (vals1 vals2 : CVar → ℕ → ℚ) (solve : BlockState → BlockState × ℕ)
    (unfix : String) (s : BlockState)
    (hu : unfix = "hot_flow" ∨ unfix = "cold_flow" ∨ unfix = "pressure") :
    condenserInit inlet1 inlet2 vals1 vals2 solve unfix s
      = Except.ok (condenserInitBody inlet1 inlet2 vals1 vals2 solve unfix s) ∧
    (∀ v t,
      (condenserInitBody inlet1 inlet2 vals1 vals2 solve unfix s).1.fixedV v t
        = s.fixedV v t) ∧
    (∀ cc,
      (condenserInitBody inlet1 inlet2 vals1 vals2 solve unfix s).1.activeC cc
        = s.activeC cc) := by
  refine ⟨?_, fun v t => rfl, fun cc => rfl⟩
  unfold condenserInit
  rw [if_pos hu]

/-- C2, witness at a concrete input. -/
theorem cond_c2_init_restores_state_witness :
    (condenserInitBody (fun _ => false) (fun _ => false) (fun _ _ => 0)
        (fun _ _ => 0) (fun st => (st, 0)) "hot_flow" witState).1.fixedV
      CVar.hotFlowIn 0 = witState.fixedV CVar.hotFlowIn 0 :=
  (cond_c2_init_restores_state (fun _ => false) (fun _ => false)
    (fun _ _ => 0) (fun _ _ => 0) (fun st => (st, 0)) "hot_flow" witState
    (Or.inl rfl)).2.1 CVar.hotFlowIn 0

/-- C8: an `unfix` argument outside the three enumerated options makes the
initialization routine raise immediately with the invalid-argument message,
independently of the solver and with no state produced. -/
theorem cond_c8_invalid_unfix (inlet1 inlet2 : CVar → Bool)
    (vals1 vals2 : CVar → ℕ → ℚ) (solve : BlockState → BlockState × ℕ)
    (unfix : String) (s : BlockState)
    (hbad : ¬ (unfix = "hot_flow" ∨ unfix = "cold_flow" ∨ unfix = "pressure")) :
    condenserInit inlet1 inlet2 vals1 vals2 solve unfix s
      = Except.error condenserUnfixError := by
  unfold condenserInit
  rw [if_neg hbad]

/-- C8, witness: the invalid argument of the spec's scenario. -/
theorem cond_c8_invalid_unfix_witness :
    condenserInit (fun _ => false) (fun _ => false) (fun _ _ => 0)
        (fun _ _ => 0) (fun st => (st, 0)) "flowrate" witState
      = Except.error condenserUnfixError :=
  cond_c8_invalid_unfix (fun _ => false) (fun _ => false) (fun _ _ => 0)
    (fun _ _ => 0) (fun st => (st, 0)) "flowrate" witState (by decide)

/-- C10: for a valid `unfix` argument whose selected variable is fixed at
every time index before the call, the state handed to the solver has that
variable free at time index 0 and fixed — its pre-call status — at every
other time index; moreover the unfixing step changes no fixed flag other
than the selected variable's at time index 0. -/
theorem cond_c10_unfix_only_t0 (inlet1 inlet2 : CVar → Bool)
    (vals1 vals2 : CVar → ℕ → ℚ) (unfix : String) (s : BlockState)
    (hu : unfix = "hot_flow" ∨ unfix = "cold_flow" ∨ unfix = "pressure")
    (hfix : ∀ t, s.fixedV (selectedVar unfix) t = true) :
    (preSolveState inlet1 inlet2 vals1 vals2 unfix s).fixedV
        (selectedVar unfix) 0 = false ∧
    (∀ t, t ≠ 0 →
      (preSolveState inlet1 inlet2 vals1 vals2 unfix s).fixedV
          (selectedVar unfix) t = s.fixedV (selectedVar unfix) t) ∧
    (∀ s' : BlockState, ∀ v t, ¬ (v = selectedVar unfix ∧ t = 0) →
      (unfixStep unfix s').fixedV v t = s'.fixedV v t) := by
  rcases hu with hu | hu | hu <;> subst hu <;>
    refine ⟨?_, fun t ht => ?_, fun s' v t hvt => ?_⟩ <;>
    simp_all [preSolveState, unfixStep, selectedVar, activateSaturation,
      cvInit, hfix] <;>
    tauto

/-- C10, witness at a concrete input. -/
theorem cond_c10_unfix_only_t0_witness :
    (preSolveState (fun _ => false) (fun _ => false) (fun _ _ => 0)
        (fun _ _ => 0) "hot_flow" witState).fixedV (selectedVar "hot_flow") 0
      = false :=
  (cond_c10_unfix_only_t0 (fun _ => false) (fun _ => false) (fun _ _ => 0)
    (fun _ _ => 0) "hot_flow" witState (Or.inl rfl) (fun _ => rfl)).1
